import Mathlib

/-!
Verification of the record-cleaning pipeline of `data_cleaning.py` and the
statistics helper of `data_transformations.py`.

Python values occurring in records are modelled by `Value` (Python `None`,
strings, and numbers, the latter as exact rationals).  A record (Python dict)
is an association list from field names to values; Python guarantees key
uniqueness, and none of the verified properties depend on it.  `record.get(k)`
returns `None` when the key is absent, which `Record.pyGet` reproduces.
-/

inductive Value where
  | none : Value
  | str  : String → Value
  | num  : ℚ → Value
deriving DecidableEq

abbrev Record := List (String × Value)

/-- `key in record` / `record[key]` lookup: first binding of the key, if any. -/
def Record.getOpt : Record → String → Option Value
  | [], _ => Option.none
  | (k, v) :: rest, f => if k = f then some v else Record.getOpt rest f

/-- Python `record.get(key)`: the stored value, or `None` when the key is absent. -/
def Record.pyGet (r : Record) (f : String) : Value :=
  (r.getOpt f).getD Value.none

/-- `remove_duplicate_dicts` loop: `seen` is the set of key-values already kept. -/
def dedupGo (key : String) (seen : List Value) : List Record → List Record
  | [] => []
  | r :: rs =>
    if r.pyGet key ∈ seen then dedupGo key seen rs
    else r :: dedupGo key (r.pyGet key :: seen) rs

/-- `remove_duplicate_dicts(records, key)` from `data_cleaning.py`. -/
def remove_duplicate_dicts (records : List Record) (key : String) : List Record :=
  dedupGo key [] records

/-- Specification-side description of keyed duplicate removal: keep the first
record of each distinct key-image and drop every later record sharing it. -/
def dedupFirstBy (f : Record → Value) : List Record → List Record
  | [] => []
  | r :: rs => r :: dedupFirstBy f (rs.filter (fun x => f x ≠ f r))
termination_by l => l.length
decreasing_by
  exact Nat.lt_succ_of_le (List.length_filter_le _ _)

/-- The predicate of `filter_records_by_criteria`: the inner loop over
`criteria.items()` breaks on the first mismatch of `record.get(key) != value`. -/
def matchesCriteria (criteria : List (String × Value)) (r : Record) : Bool :=
  criteria.all (fun kv => r.pyGet kv.1 == kv.2)

/-- `filter_records_by_criteria(records, criteria)` from `data_cleaning.py`. -/
def filter_records_by_criteria (records : List Record)
    (criteria : List (String × Value)) : List Record :=
  records.filter (matchesCriteria criteria)

/-- The per-record check of `remove_records_with_missing_fields`: every required
field must be present, not `None`, and not the empty string. -/
def hasAllFields (required_fields : List String) (r : Record) : Bool :=
  required_fields.all (fun f =>
    match r.getOpt f with
    | Option.none => false
    | some Value.none => false
    | some (Value.str s) => s ≠ ""
    | some (Value.num _) => true)

/-- `remove_records_with_missing_fields(records, required_fields)`. -/
def remove_records_with_missing_fields (records : List Record)
    (required_fields : List String) : List Record :=
  records.filter (hasAllFields required_fields)

/-- `clean_whitespace(text)`: `' '.join(text.split())` — split on whitespace
(dropping the empty pieces between consecutive separators, as Python
`str.split()` does) and re-join with single spaces, working on the character
list of the string. -/
def clean_whitespace (text : String) : String :=
  String.mk (List.intercalate [' ']
    ((text.toList.splitOnP Char.isWhitespace).filter (· ≠ [])))

/-- The string-field normalization stage of `clean_dataset`: for each configured
field that is present with a string value, replace it by its cleaned form. -/
def cleanStringFields (string_fields : List String) (r : Record) : Record :=
  r.map (fun kv =>
    if kv.1 ∈ string_fields then
      match kv.2 with
      | Value.str s => (kv.1, Value.str (clean_whitespace s))
      | v => (kv.1, v)
    else kv)

/-- `clean_dataset`'s configuration. Absent Python keys are the falsy defaults:
`remove_duplicates = false`, `duplicate_key = none`, empty lists. A present but
empty-string `duplicate_key` is falsy in Python, which `dupRuns` reproduces. -/
structure Config where
  remove_duplicates : Bool
  duplicate_key : Option String
  required_fields : List String
  string_fields : List String
  filters : List (String × Value)
deriving DecidableEq

/-- `config.get('remove_duplicates') and config.get('duplicate_key')` truthiness. -/
def dupRuns (cfg : Config) : Bool :=
  cfg.remove_duplicates &&
    (match cfg.duplicate_key with
     | some k => k ≠ ""
     | Option.none => false)

/-- Stage 1 of `clean_dataset`: duplicate removal, when configured. -/
def dupStage (cfg : Config) (d : List Record) : List Record :=
  if dupRuns cfg then remove_duplicate_dicts d (cfg.duplicate_key.getD "") else d

/-- Stage 2: required-field filtering, when `required_fields` is truthy. -/
def missingStage (cfg : Config) (d : List Record) : List Record :=
  if cfg.required_fields ≠ [] then
    remove_records_with_missing_fields d cfg.required_fields
  else d

/-- Stage 3: in-place string-field normalization, when `string_fields` is truthy. -/
def stringStage (cfg : Config) (d : List Record) : List Record :=
  if cfg.string_fields ≠ [] then d.map (cleanStringFields cfg.string_fields) else d

/-- Stage 4: criteria filtering, when `filters` is truthy. -/
def filterStage (cfg : Config) (d : List Record) : List Record :=
  if cfg.filters ≠ [] then filter_records_by_criteria d cfg.filters else d

/-- The result dictionary built by `clean_dataset`. -/
structure CleanResult where
  original_count : Nat
  cleaned_data : List Record
  removed_duplicates : Nat
  removed_missing : Nat
  removed_invalid : Nat
  final_count : Nat
  total_removed : Nat
deriving DecidableEq

/-- `clean_dataset(records, config)` from `data_cleaning.py`: the four stages in
their fixed order, each skipped stage leaving the data unchanged (and hence a
zero removed-count, exactly as the Python initialises the counters to 0). -/
def clean_dataset (records : List Record) (cfg : Config) : CleanResult :=
  let d0 := records
  let d1 := dupStage cfg d0
  let d2 := missingStage cfg d1
  let d3 := stringStage cfg d2
  let d4 := filterStage cfg d3
  { original_count := d0.length
    cleaned_data := d4
    removed_duplicates := d0.length - d1.length
    removed_missing := d1.length - d2.length
    removed_invalid := d3.length - d4.length
    final_count := d4.length
    total_removed := d0.length - d4.length }

/-- Python `sorted(data)` on numbers. -/
def pySorted (data : List ℚ) : List ℚ :=
  List.insertionSort (· ≤ ·) data

/-- `filter_outliers(data, method)` from `data_cleaning.py`.  The `'std'`
branch's test `abs(x - mean) <= 3 * std_dev` with `std_dev = variance ** 0.5`
is encoded by the equivalent squared comparison, exact over the rationals. -/
def filter_outliers (data : List ℚ) (method : String) : List ℚ :=
  if data = [] then []
  else if method = "iqr" then
    let sorted_data := pySorted data
    let n := sorted_data.length
    let q1 := sorted_data.getD (n / 4) 0
    let q3 := sorted_data.getD ((3 * n) / 4) 0
    let iqr := q3 - q1
    let lower_bound := q1 - 3/2 * iqr
    let upper_bound := q3 + 3/2 * iqr
    data.filter (fun x => lower_bound ≤ x ∧ x ≤ upper_bound)
  else if method = "std" then
    let mean := data.sum / (data.length : ℚ)
    let variance := (data.map (fun x => (x - mean) ^ 2)).sum / (data.length : ℚ)
    data.filter (fun x => (x - mean) ^ 2 ≤ 3 ^ 2 * variance)
  else data

/-- `fill_missing_values(data, fill_value=None)` from `data_cleaning.py`.
Python `None` entries are `Option.none`; a filled entry is `some`. -/
def fill_missing_values (data : List (Option ℚ)) (fill_value : Option ℚ) :
    List (Option ℚ) :=
  match fill_value with
  | Option.none =>
    let valid_values := data.filterMap id
    if valid_values = [] then data
    else
      let m := valid_values.sum / (valid_values.length : ℚ)
      data.map (fun x => some (x.getD m))
  | some fv => data.map (fun x => some (x.getD fv))

/-- `standardize_phone_numbers(phone)` from `data_cleaning.py`: drop the
non-digit characters; a 10-digit result is formatted, anything else returned
bare.  Python slices `digits[:3]`, `digits[3:6]`, `digits[6:]` are character
slices of the digit string. -/
def standardize_phone_numbers (phone : String) : String :=
  let digits := phone.toList.filter Char.isDigit
  if digits.length = 10 then
    "(" ++ String.mk (digits.take 3) ++ ") " ++
      String.mk ((digits.drop 3).take 3) ++ "-" ++ String.mk (digits.drop 6)
  else String.mk digits

/-- The dictionary returned by `calculate_statistics`; `std_dev` is the real
value of `variance ** 0.5`. -/
structure Stats where
  mean : ℚ
  median : ℚ
  std_dev : ℝ

/-- `calculate_statistics(numbers)` from `data_transformations.py`. -/
noncomputable def calculate_statistics (numbers : List ℚ) : Stats :=
  if numbers = [] then { mean := 0, median := 0, std_dev := 0 }
  else
    let sorted_nums := pySorted numbers
    let n := numbers.length
    let mean := numbers.sum / (n : ℚ)
    let median :=
      if n % 2 = 1 then sorted_nums.getD (n / 2) 0
      else (sorted_nums.getD (n / 2 - 1) 0 + sorted_nums.getD (n / 2) 0) / 2
    let variance := (numbers.map (fun x => (x - mean) ^ 2)).sum / (n : ℚ)
    { mean := mean, median := median, std_dev := Real.sqrt (variance : ℝ) }

/-! Basic properties of the duplicate-removal loop. -/

theorem dedupGo_sublist (key : String) (seen : List Value) (l : List Record) :
    (dedupGo key seen l).Sublist l := by
  induction l generalizing seen with
  | nil => simp [dedupGo]
  | cons r rs ih =>
    by_cases h : r.pyGet key ∈ seen
    · simpa [dedupGo, h] using (ih seen).cons r
    · simpa [dedupGo, h] using (ih (r.pyGet key :: seen)).cons₂ r

theorem pyGet_not_mem_of_mem_dedupGo {key : String} {seen : List Value}
    {l : List Record} {x : Record} (hx : x ∈ dedupGo key seen l) :
    x.pyGet key ∉ seen := by
  induction l generalizing seen with
  | nil => simp [dedupGo] at hx
  | cons r rs ih =>
    by_cases h : r.pyGet key ∈ seen
    · rw [dedupGo, if_pos h] at hx
      exact ih hx
    · rw [dedupGo, if_neg h] at hx
      rcases List.mem_cons.mp hx with rfl | hx
      · exact h
      · exact fun hs => ih hx (List.mem_cons_of_mem _ hs)

theorem dedupGo_pairwise (key : String) (seen : List Value) (l : List Record) :
    (dedupGo key seen l).Pairwise (fun a b => a.pyGet key ≠ b.pyGet key) := by
  induction l generalizing seen with
  | nil => simp [dedupGo]
  | cons r rs ih =>
    by_cases h : r.pyGet key ∈ seen
    · simpa [dedupGo, h] using ih seen
    · rw [dedupGo, if_neg h]
      refine List.Pairwise.cons (fun x hx hEq => ?_) (ih _)
      exact pyGet_not_mem_of_mem_dedupGo hx (by rw [← hEq]; exact List.mem_cons_self _ _)

theorem dedupGo_eq_self {key : String} {seen : List Value} {l : List Record}
    (hp : l.Pairwise (fun a b => a.pyGet key ≠ b.pyGet key))
    (hs : ∀ x ∈ l, x.pyGet key ∉ seen) :
    dedupGo key seen l = l := by
  induction l generalizing seen with
  | nil => simp [dedupGo]
  | cons r rs ih =>
    have hr : r.pyGet key ∉ seen := hs r (List.mem_cons_self _ _)
    rw [dedupGo, if_neg hr]
    congr 1
    refine ih hp.of_cons (fun x hx => ?_)
    intro hv
    rcases List.mem_cons.mp hv with hv | hv
    · exact List.rel_of_pairwise_cons hp hx hv.symm
    · exact hs x (List.mem_cons_of_mem _ hx) hv

theorem remove_duplicate_dicts_sublist (records : List Record) (key : String) :
    (remove_duplicate_dicts records key).Sublist records :=
  dedupGo_sublist key [] records

theorem remove_duplicate_dicts_pairwise (records : List Record) (key : String) :
    (remove_duplicate_dicts records key).Pairwise
      (fun a b => a.pyGet key ≠ b.pyGet key) :=
  dedupGo_pairwise key [] records

theorem remove_duplicate_dicts_eq_self {records : List Record} {key : String}
    (hp : records.Pairwise (fun a b => a.pyGet key ≠ b.pyGet key)) :
    remove_duplicate_dicts records key = records :=
  dedupGo_eq_self hp (by simp)

/-! Basic properties of the four pipeline stages. -/

theorem dupStage_sublist (cfg : Config) (d : List Record) :
    (dupStage cfg d).Sublist d := by
  unfold dupStage
  split
  · exact remove_duplicate_dicts_sublist ..
  · exact List.Sublist.refl d

theorem missingStage_sublist (cfg : Config) (d : List Record) :
    (missingStage cfg d).Sublist d := by
  unfold missingStage
  split
  · exact List.filter_sublist d
  · exact List.Sublist.refl d

theorem filterStage_sublist (cfg : Config) (d : List Record) :
    (filterStage cfg d).Sublist d := by
  unfold filterStage
  split
  · exact List.filter_sublist d
  · exact List.Sublist.refl d

theorem cleanStringFields_nil (r : Record) : cleanStringFields [] r = r := by
  simp [cleanStringFields]

theorem map_cleanStringFields_nil (d : List Record) :
    d.map (cleanStringFields []) = d := by
  induction d with
  | nil => rfl
  | cons r rs ih => simp [cleanStringFields_nil, ih]

theorem stringStage_eq_map (cfg : Config) (d : List Record) :
    stringStage cfg d = d.map (cleanStringFields cfg.string_fields) := by
  unfold stringStage
  split
  · rfl
  · rename_i h
    rw [not_ne_iff.mp h, map_cleanStringFields_nil]

theorem stringStage_length (cfg : Config) (d : List Record) :
    (stringStage cfg d).length = d.length := by
  rw [stringStage_eq_map, List.length_map]

/-- C1: for every list of records and every configuration, the `clean_dataset`
result satisfies `original_count - total_removed == final_count`, and
`total_removed` equals `removed_duplicates + removed_missing + removed_invalid`,
a stage that is not configured contributing zero. -/
theorem clean_dataset_count_invariant (records : List Record) (cfg : Config) :
    ((clean_dataset records cfg).original_count : ℤ)
        - ((clean_dataset records cfg).total_removed : ℤ)
        = ((clean_dataset records cfg).final_count : ℤ) ∧
    (clean_dataset records cfg).total_removed
        = (clean_dataset records cfg).removed_duplicates
          + (clean_dataset records cfg).removed_missing
          + (clean_dataset records cfg).removed_invalid ∧
    (dupRuns cfg = false → (clean_dataset records cfg).removed_duplicates = 0) ∧
    (cfg.required_fields = [] → (clean_dataset records cfg).removed_missing = 0) ∧
    (cfg.filters = [] → (clean_dataset records cfg).removed_invalid = 0) := by
  have l1 : (dupStage cfg records).length ≤ records.length :=
    (dupStage_sublist cfg records).length_le
  have l2 : (missingStage cfg (dupStage cfg records)).length
      ≤ (dupStage cfg records).length :=
    (missingStage_sublist cfg (dupStage cfg records)).length_le
  have l3 : (stringStage cfg (missingStage cfg (dupStage cfg records))).length
      = (missingStage cfg (dupStage cfg records)).length :=
    stringStage_length cfg (missingStage cfg (dupStage cfg records))
  have l4 : (filterStage cfg
        (stringStage cfg (missingStage cfg (dupStage cfg records)))).length
      ≤ (stringStage cfg (missingStage cfg (dupStage cfg records))).length :=
    (filterStage_sublist cfg
      (stringStage cfg (missingStage cfg (dupStage cfg records)))).length_le
  have e1 : (clean_dataset records cfg).original_count = records.length := rfl
  have e2 : (clean_dataset records cfg).final_count
      = (filterStage cfg (stringStage cfg (missingStage cfg
          (dupStage cfg records)))).length := rfl
  have e3 : (clean_dataset records cfg).total_removed
      = records.length - (filterStage cfg (stringStage cfg (missingStage cfg
          (dupStage cfg records)))).length := rfl
  have e4 : (clean_dataset records cfg).removed_duplicates
      = records.length - (dupStage cfg records).length := rfl
  have e5 : (clean_dataset records cfg).removed_missing
      = (dupStage cfg records).length
        - (missingStage cfg (dupStage cfg records)).length := rfl
  have e6 : (clean_dataset records cfg).removed_invalid
      = (stringStage cfg (missingStage cfg (dupStage cfg records))).length
        - (filterStage cfg (stringStage cfg (missingStage cfg
            (dupStage cfg records)))).length := rfl
  rw [e1, e2, e3, e4, e5, e6]
  refine ⟨by omega, by omega, ?_, ?_, ?_⟩
  · intro h
    simp [dupStage, h]
  · intro h
    simp [missingStage, h]
  · intro h
    simp [filterStage, h]

/-- Witness for C1 at a concrete input: the trivial configuration skips every
stage, so all removed counts are zero. -/
theorem clean_dataset_count_invariant_witness :
    (clean_dataset [[("id", Value.num 1)]]
        ⟨false, Option.none, [], [], []⟩).removed_duplicates = 0 ∧
    (clean_dataset [[("id", Value.num 1)]]
        ⟨false, Option.none, [], [], []⟩).removed_missing = 0 ∧
    (clean_dataset [[("id", Value.num 1)]]
        ⟨false, Option.none, [], [], []⟩).removed_invalid = 0 :=
  ⟨(clean_dataset_count_invariant [[("id", Value.num 1)]]
      ⟨false, Option.none, [], [], []⟩).2.2.1 (by rfl),
   (clean_dataset_count_invariant [[("id", Value.num 1)]]
      ⟨false, Option.none, [], [], []⟩).2.2.2.1 (by rfl),
   (clean_dataset_count_invariant [[("id", Value.num 1)]]
      ⟨false, Option.none, [], [], []⟩).2.2.2.2 (by rfl)⟩

/-- C10: the `cleaned_data` returned by `clean_dataset` is a subsequence of the
input record list with string fields whitespace-normalized: every output record
is the normalization of one of the input records, none is added or duplicated,
and the survivors keep their original relative order.  When no string fields
are configured the normalization is the identity. -/
theorem clean_dataset_cleaned_data_sublist (records : List Record) (cfg : Config) :
    (clean_dataset records cfg).cleaned_data.Sublist
      (records.map (cleanStringFields cfg.string_fields)) := by
  have hkey : (clean_dataset records cfg).cleaned_data
      = filterStage cfg (stringStage cfg (missingStage cfg (dupStage cfg records))) :=
    rfl
  rw [hkey, stringStage_eq_map]
  exact (filterStage_sublist cfg _).trans
    (((missingStage_sublist cfg _).trans (dupStage_sublist cfg _)).map _)

/-- Counterexample to C2 as stated: with duplicate removal keyed on `name` and
`name` configured as a string field, the records `{"name": "a  b"}` (double
space) and `{"name": "a b"}` have distinct keys, so the first pass removes
nothing but normalizes both names to `"a b"`; the second pass then removes one
record, so it is not idempotent and its output differs from its input. -/
theorem clean_dataset_not_idempotent :
    (clean_dataset
        (clean_dataset [[("name", Value.str "a  b")], [("name", Value.str "a b")]]
          ⟨true, some "name", [], ["name"], []⟩).cleaned_data
        ⟨true, some "name", [], ["name"], []⟩).total_removed = 1 ∧
    (clean_dataset
        (clean_dataset [[("name", Value.str "a  b")], [("name", Value.str "a b")]]
          ⟨true, some "name", [], ["name"], []⟩).cleaned_data
        ⟨true, some "name", [], ["name"], []⟩).cleaned_data
      ≠ (clean_dataset [[("name", Value.str "a  b")], [("name", Value.str "a b")]]
          ⟨true, some "name", [], ["name"], []⟩).cleaned_data := by
  constructor
  · decide
  · decide

/-! Fixed-point lemmas for the stages, used for the idempotence analysis. -/

theorem dupStage_run (cfg : Config) (d : List Record) (hrun : dupRuns cfg = true) :
    dupStage cfg d = remove_duplicate_dicts d (cfg.duplicate_key.getD "") := by
  unfold dupStage
  rw [if_pos hrun]

theorem dupStage_skip (cfg : Config) (d : List Record)
    (hrun : ¬ dupRuns cfg = true) : dupStage cfg d = d := by
  unfold dupStage
  rw [if_neg hrun]

theorem dupStage_eq_self {cfg : Config} {d : List Record}
    (hp : d.Pairwise (fun a b =>
      a.pyGet (cfg.duplicate_key.getD "") ≠ b.pyGet (cfg.duplicate_key.getD ""))) :
    dupStage cfg d = d := by
  unfold dupStage
  split
  · exact remove_duplicate_dicts_eq_self hp
  · rfl

theorem missingStage_run (cfg : Config) (d : List Record)
    (hrf : cfg.required_fields ≠ []) :
    missingStage cfg d = d.filter (hasAllFields cfg.required_fields) := by
  unfold missingStage
  rw [if_pos hrf]
  rfl

theorem missingStage_eq_self {cfg : Config} {d : List Record}
    (h : ∀ x ∈ d, hasAllFields cfg.required_fields x = true) :
    missingStage cfg d = d := by
  unfold missingStage
  split
  · show d.filter (hasAllFields cfg.required_fields) = d
    exact List.filter_eq_self.mpr h
  · rfl

theorem filterStage_run (cfg : Config) (d : List Record)
    (hf : cfg.filters ≠ []) :
    filterStage cfg d = d.filter (matchesCriteria cfg.filters) := by
  unfold filterStage
  rw [if_pos hf]
  rfl

theorem filterStage_eq_self {cfg : Config} {d : List Record}
    (h : ∀ x ∈ d, matchesCriteria cfg.filters x = true) :
    filterStage cfg d = d := by
  unfold filterStage
  split
  · show d.filter (matchesCriteria cfg.filters) = d
    exact List.filter_eq_self.mpr h
  · rfl

/-- C2 (amended): when the string-field normalization stage is not configured,
applying `clean_dataset` a second time with the same configuration to the
`cleaned_data` of the first application removes zero records and returns its
input unchanged. -/
theorem clean_dataset_idempotent_of_no_string_fields (records : List Record)
    (cfg : Config) (hsf : cfg.string_fields = []) :
    (clean_dataset (clean_dataset records cfg).cleaned_data cfg).total_removed = 0 ∧
    (clean_dataset (clean_dataset records cfg).cleaned_data cfg).cleaned_data
      = (clean_dataset records cfg).cleaned_data := by
  have hs : ∀ d : List Record, stringStage cfg d = d := by
    intro d
    simp [stringStage, hsf]
  have hcd : (clean_dataset records cfg).cleaned_data
      = filterStage cfg (missingStage cfg (dupStage cfg records)) := by
    show filterStage cfg (stringStage cfg (missingStage cfg (dupStage cfg records)))
      = _
    rw [hs]
  have hTR : ∀ d : List Record, (clean_dataset d cfg).total_removed
      = d.length - (filterStage cfg (stringStage cfg (missingStage cfg
          (dupStage cfg d)))).length := fun _ => rfl
  have hCD : ∀ d : List Record, (clean_dataset d cfg).cleaned_data
      = filterStage cfg (stringStage cfg (missingStage cfg (dupStage cfg d))) :=
    fun _ => rfl
  have hsub2 : (filterStage cfg (missingStage cfg (dupStage cfg records))).Sublist
      (missingStage cfg (dupStage cfg records)) := filterStage_sublist cfg _
  have hsub1 : (filterStage cfg (missingStage cfg (dupStage cfg records))).Sublist
      (dupStage cfg records) := hsub2.trans (missingStage_sublist cfg _)
  have h1 : dupStage cfg (filterStage cfg (missingStage cfg (dupStage cfg records)))
      = filterStage cfg (missingStage cfg (dupStage cfg records)) := by
    by_cases hrun : dupRuns cfg = true
    · refine dupStage_eq_self (List.Pairwise.sublist hsub1 ?_)
      rw [dupStage_run cfg records hrun]
      exact remove_duplicate_dicts_pairwise ..
    · exact dupStage_skip cfg _ hrun
  have h2 : missingStage cfg
        (filterStage cfg (missingStage cfg (dupStage cfg records)))
      = filterStage cfg (missingStage cfg (dupStage cfg records)) := by
    by_cases hrf : cfg.required_fields = []
    · unfold missingStage
      rw [if_neg (not_ne_iff.mpr hrf)]
    · refine missingStage_eq_self (fun x hx => ?_)
      have hx2 : x ∈ missingStage cfg (dupStage cfg records) := hsub2.subset hx
      rw [missingStage_run cfg _ hrf] at hx2
      exact (List.mem_filter.mp hx2).2
  have h3 : filterStage cfg
        (filterStage cfg (missingStage cfg (dupStage cfg records)))
      = filterStage cfg (missingStage cfg (dupStage cfg records)) := by
    by_cases hf : cfg.filters = []
    · unfold filterStage
      rw [if_neg (not_ne_iff.mpr hf)]
    · refine filterStage_eq_self (fun x hx => ?_)
      rw [filterStage_run cfg _ hf] at hx
      exact (List.mem_filter.mp hx).2
  have hpfix : filterStage cfg (stringStage cfg (missingStage cfg (dupStage cfg
        (filterStage cfg (missingStage cfg (dupStage cfg records))))))
      = filterStage cfg (missingStage cfg (dupStage cfg records)) := by
    rw [h1, h2, hs, h3]
  constructor
  · rw [hcd, hTR, hpfix]
    exact Nat.sub_self _
  · rw [hcd, hCD, hpfix]

/-- Witness for the amended C2 at a concrete input with duplicate removal,
required fields and criteria filtering all configured but no string fields. -/
theorem clean_dataset_idempotent_witness :
    (clean_dataset
        (clean_dataset
          [[("id", Value.num 1), ("age", Value.num 25)],
           [("id", Value.num 1), ("age", Value.num 30)],
           [("id", Value.num 2)],
           [("id", Value.num 3), ("age", Value.num 25)]]
          ⟨true, some "id", ["age"], [], [("age", Value.num 25)]⟩).cleaned_data
        ⟨true, some "id", ["age"], [], [("age", Value.num 25)]⟩).total_removed = 0 :=
  (clean_dataset_idempotent_of_no_string_fields
    [[("id", Value.num 1), ("age", Value.num 25)],
     [("id", Value.num 1), ("age", Value.num 30)],
     [("id", Value.num 2)],
     [("id", Value.num 3), ("age", Value.num 25)]]
    ⟨true, some "id", ["age"], [], [("age", Value.num 25)]⟩ rfl).1

/-- Counterexample to C3 as stated: with the non-empty criteria `{"x": None}`,
the empty record lacks the field `"x"`, yet `record.get("x")` returns `None`,
which equals the criteria value, so the record is kept rather than excluded. -/
theorem filter_records_by_criteria_none_matches :
    Record.getOpt [] "x" = Option.none ∧
    [("x", Value.none)] ≠ ([] : List (String × Value)) ∧
    filter_records_by_criteria [[]] [("x", Value.none)] = [[]] := by
  refine ⟨rfl, by decide, by decide⟩

theorem matchesCriteria_eq_decide (criteria : List (String × Value)) (r : Record) :
    matchesCriteria criteria r
      = decide (∀ kv ∈ criteria, r.pyGet kv.1 = kv.2) := by
  rcases h : matchesCriteria criteria r with _ | _
  · symm
    rw [decide_eq_false_iff_not]
    intro hall
    have htrue : matchesCriteria criteria r = true := by
      rw [matchesCriteria, List.all_eq_true]
      intro kv hkv
      rw [beq_iff_eq]
      exact hall kv hkv
    rw [h] at htrue
    exact Bool.false_ne_true htrue
  · symm
    rw [decide_eq_true_iff]
    intro kv hkv
    rw [matchesCriteria, List.all_eq_true] at h
    exact beq_iff_eq.mp (h kv hkv)

/-- C3 (amended): `filter_records_by_criteria` keeps a record iff
`record.get(field) == value` for every `(field, value)` pair in the criteria;
a record lacking one of the criteria fields is excluded whenever that field's
criteria value is not `None`, since the missing-field lookup returns `None`,
which does match a `None` criteria value. -/
theorem filter_records_by_criteria_spec (records : List Record)
    (criteria : List (String × Value)) :
    filter_records_by_criteria records criteria
      = records.filter (fun r => decide (∀ kv ∈ criteria, r.pyGet kv.1 = kv.2)) ∧
    (∀ (r : Record) (k : String) (v : Value), (k, v) ∈ criteria →
      r.getOpt k = Option.none → v ≠ Value.none →
      r ∉ filter_records_by_criteria records criteria) := by
  constructor
  · unfold filter_records_by_criteria
    exact List.filter_congr (fun r _ => matchesCriteria_eq_decide criteria r)
  · intro r k v hkv hmiss hv hr
    unfold filter_records_by_criteria at hr
    have hm := (List.mem_filter.mp hr).2
    rw [matchesCriteria_eq_decide, decide_eq_true_iff] at hm
    have := hm (k, v) hkv
    rw [Record.pyGet, hmiss] at this
    exact hv this.symm

/-- Witness for C3 at a concrete input: the empty record lacks field `"x"`
and is excluded when the criteria value for `"x"` is the number 1. -/
theorem filter_records_by_criteria_spec_witness :
    ([] : Record) ∉ filter_records_by_criteria [[]] [("x", Value.num 1)] :=
  (filter_records_by_criteria_spec [[]] [("x", Value.num 1)]).2
    [] "x" (Value.num 1) (by decide) rfl (by decide)

/-- Counterexample to C4 as stated: in `[{"k": None}, {}]` the first record
stores `None` under the key, so its lookup claims the value `None` first; the
second record — the first and only record actually missing the key — is then
dropped, contradicting "the first record missing the key is kept". -/
theorem remove_duplicate_dicts_missing_key_dropped :
    Record.getOpt [] "k" = Option.none ∧
    remove_duplicate_dicts [[("k", Value.none)], []] "k"
      = [[("k", Value.none)]] :=
  ⟨rfl, by decide⟩

theorem dedupGo_eq_dedupFirstBy (key : String) (seen : List Value)
    (l : List Record) :
    dedupGo key seen l
      = dedupFirstBy (fun r => r.pyGet key)
          (l.filter (fun x => x.pyGet key ∉ seen)) := by
  induction l generalizing seen with
  | nil => simp [dedupGo, dedupFirstBy]
  | cons r rs ih =>
    by_cases h : r.pyGet key ∈ seen
    · rw [dedupGo, if_pos h, List.filter_cons_of_neg (by simpa using h)]
      exact ih seen
    · rw [dedupGo, if_neg h, List.filter_cons_of_pos (by simpa using h),
        dedupFirstBy]
      congr 1
      rw [ih (r.pyGet key :: seen), List.filter_filter]
      congr 1
      apply List.filter_congr
      intro x _
      by_cases h1 : x.pyGet key = r.pyGet key <;>
        by_cases h2 : x.pyGet key ∈ seen <;>
          simp [List.mem_cons, h1, h2]

theorem dedupGo_filter_beq (key : String) (v : Value) (seen : List Value)
    (l : List Record) :
    (dedupGo key seen l).filter (fun r => r.pyGet key == v)
      = if v ∈ seen then []
        else (l.filter (fun r => r.pyGet key == v)).take 1 := by
  induction l generalizing seen with
  | nil => simp [dedupGo]
  | cons r rs ih =>
    by_cases h : r.pyGet key ∈ seen
    · rw [dedupGo, if_pos h, ih seen]
      by_cases hrv : r.pyGet key = v
      · rw [if_pos (hrv ▸ h), if_pos (hrv ▸ h)]
      · rw [List.filter_cons_of_neg (by simp [hrv])]
    · rw [dedupGo, if_neg h]
      by_cases hrv : r.pyGet key = v
      · rw [List.filter_cons_of_pos (by simp [hrv]), ih (r.pyGet key :: seen),
          if_pos (by rw [← hrv]; exact List.mem_cons_self _ _),
          if_neg (hrv ▸ h), List.filter_cons_of_pos (by simp [hrv])]
        rfl
      · rw [List.filter_cons_of_neg (by simp [hrv]), ih (r.pyGet key :: seen),
          List.filter_cons_of_neg (by simp [hrv])]
        have hiff : v ∈ r.pyGet key :: seen ↔ v ∈ seen := by
          rw [List.mem_cons]
          constructor
          · rintro (h1 | h1)
            · exact absurd h1.symm hrv
            · exact h1
          · exact Or.inr
        rw [if_congr hiff rfl rfl]

/-- C4 (amended): `remove_duplicate_dicts` keeps exactly the first record for
each distinct value of `record[key]` in first-occurrence order, a record
missing the key being treated as having the value `None`; consequently, among
the records whose key lookup reads `None` — missing key or stored `None` —
exactly the first is kept and every later one is dropped (in particular, when
no record stores `None`, the first record missing the key is kept and all
later records missing the key are dropped). -/
theorem remove_duplicate_dicts_spec (records : List Record) (key : String) :
    remove_duplicate_dicts records key
      = dedupFirstBy (fun r => r.pyGet key) records ∧
    (remove_duplicate_dicts records key).Sublist records ∧
    (remove_duplicate_dicts records key).Pairwise
      (fun a b => a.pyGet key ≠ b.pyGet key) ∧
    (remove_duplicate_dicts records key).filter
        (fun r => r.pyGet key == Value.none)
      = (records.filter (fun r => r.pyGet key == Value.none)).take 1 := by
  refine ⟨?_, remove_duplicate_dicts_sublist .., remove_duplicate_dicts_pairwise ..,
    ?_⟩
  · have h := dedupGo_eq_dedupFirstBy key [] records
    simpa [remove_duplicate_dicts] using h
  · have h := dedupGo_filter_beq key Value.none [] records
    simpa [remove_duplicate_dicts] using h

/-- C9: for every non-empty numeric list and every method other than
`'iqr'` and `'std'`, `filter_outliers` returns its input unchanged. -/
theorem filter_outliers_unknown_method (data : List ℚ) (method : String)
    (hd : data ≠ []) (h1 : method ≠ "iqr") (h2 : method ≠ "std") :
    filter_outliers data method = data := by
  unfold filter_outliers
  rw [if_neg hd, if_neg h1, if_neg h2]

/-- Witness for C9 at a concrete input and unknown method string. -/
theorem filter_outliers_unknown_method_witness :
    filter_outliers [1] "median" = [1] :=
  filter_outliers_unknown_method [1] "median" (by decide) (by decide) (by decide)

/-- C5: for every non-empty numeric list, `filter_outliers` with method
`'iqr'` takes Q1 and Q3 as the sorted list's elements at indices `n / 4` and
`(3 * n) / 4` (`n` the length), and returns exactly the input elements lying
within `[Q1 - 1.5 * IQR, Q3 + 1.5 * IQR]` inclusive, as a subsequence in the
input's original order. -/
theorem filter_outliers_iqr_spec (data : List ℚ) (hd : data ≠ []) :
    filter_outliers data "iqr"
      = data.filter (fun x =>
          (pySorted data).getD (data.length / 4) 0
              - 3/2 * ((pySorted data).getD ((3 * data.length) / 4) 0
                - (pySorted data).getD (data.length / 4) 0) ≤ x ∧
          x ≤ (pySorted data).getD ((3 * data.length) / 4) 0
              + 3/2 * ((pySorted data).getD ((3 * data.length) / 4) 0
                - (pySorted data).getD (data.length / 4) 0)) ∧
    (filter_outliers data "iqr").Sublist data := by
  have hlen : (pySorted data).length = data.length :=
    (List.perm_insertionSort _ data).length_eq
  constructor
  · unfold filter_outliers
    rw [if_neg hd, if_pos rfl]
    dsimp only
    rw [hlen]
  · unfold filter_outliers
    rw [if_neg hd, if_pos rfl]
    dsimp only
    exact List.filter_sublist data

/-- Witness for C5 at a concrete non-empty input. -/
theorem filter_outliers_iqr_spec_witness :
    (filter_outliers [10, 12, 100] "iqr").Sublist [10, 12, 100] :=
  (filter_outliers_iqr_spec [10, 12, 100] (by decide)).2

/-- C7: `fill_missing_values` without an explicit fill value returns the input
unchanged when every entry is `None`; otherwise it keeps length and positions,
maps each non-`None` entry to itself and each `None` entry to the arithmetic
mean of the non-`None` entries; and on `[10, None, 20, None, 30, 40]` it fills
with 25. -/
theorem fill_missing_values_spec (data : List (Option ℚ)) :
    ((∀ x ∈ data, x = Option.none) →
      fill_missing_values data Option.none = data) ∧
    (data.filterMap id ≠ [] →
      (fill_missing_values data Option.none).length = data.length ∧
      ∀ i : ℕ, i < data.length →
        (fill_missing_values data Option.none).getD i Option.none
          = some ((data.getD i Option.none).getD
              ((data.filterMap id).sum / ((data.filterMap id).length : ℚ)))) ∧
    fill_missing_values [some 10, Option.none, some 20, Option.none, some 30,
        some 40] Option.none
      = [some 10, some 25, some 20, some 25, some 30, some 40] := by
  refine ⟨fun hall => ?_, fun hne => ⟨?_, fun i hi => ?_⟩, ?_⟩
  · have h : data.filterMap id = [] := by
      rw [List.filterMap_eq_nil_iff]
      intro a ha
      rw [hall a ha]
      rfl
    unfold fill_missing_values
    rw [if_pos h]
  · unfold fill_missing_values
    dsimp only
    rw [if_neg hne]
    exact List.length_map ..
  · unfold fill_missing_values
    dsimp only
    rw [if_neg hne]
    simp [List.getD_eq_getElem?_getD, List.getElem?_map, List.getElem?_eq_getElem hi]
  · have hfm : List.filterMap id
        [some 10, Option.none, some 20, Option.none, some 30, some 40]
        = ([10, 20, 30, 40] : List ℚ) := rfl
    unfold fill_missing_values
    dsimp only
    rw [hfm, if_neg (by decide : ([10, 20, 30, 40] : List ℚ) ≠ [])]
    norm_num

/-- Witness for C7 at a concrete input with one missing entry. -/
theorem fill_missing_values_spec_witness :
    (fill_missing_values [some 3, Option.none] Option.none).length
      = ([some 3, Option.none] : List (Option ℚ)).length :=
  ((fill_missing_values_spec [some 3, Option.none]).2.1 (by decide)).1

/-- C8: `standardize_phone_numbers` strips every non-digit character; when
exactly 10 digits remain it formats them as `(AAA) BBB-CCCC`, and otherwise it
returns the bare digit string; on `"(123) 456-7890"` it reproduces the input
and on `"123"` it returns `"123"`. -/
theorem standardize_phone_numbers_spec :
    (∀ s : String,
      ((s.toList.filter Char.isDigit).length = 10 →
        standardize_phone_numbers s
          = "(" ++ String.mk ((s.toList.filter Char.isDigit).take 3) ++ ") "
            ++ String.mk (((s.toList.filter Char.isDigit).drop 3).take 3) ++ "-"
            ++ String.mk ((s.toList.filter Char.isDigit).drop 6)) ∧
      ((s.toList.filter Char.isDigit).length ≠ 10 →
        standardize_phone_numbers s = String.mk (s.toList.filter Char.isDigit))) ∧
    standardize_phone_numbers "(123) 456-7890" = "(123) 456-7890" ∧
    standardize_phone_numbers "123" = "123" := by
  refine ⟨fun s => ⟨fun h => ?_, fun h => ?_⟩, by decide, by decide⟩
  · unfold standardize_phone_numbers
    dsimp only
    rw [if_pos h]
  · unfold standardize_phone_numbers
    dsimp only
    rw [if_neg h]

/-- Witness for C8: a bare 10-digit string is formatted. -/
theorem standardize_phone_numbers_spec_witness :
    standardize_phone_numbers "1234567890"
      = "(" ++ String.mk (("1234567890".toList.filter Char.isDigit).take 3) ++ ") "
        ++ String.mk ((("1234567890".toList.filter Char.isDigit).drop 3).take 3)
        ++ "-" ++ String.mk (("1234567890".toList.filter Char.isDigit).drop 6) :=
  (standardize_phone_numbers_spec.1 "1234567890").1 (by decide)

theorem calculate_statistics_nonempty (xs : List ℚ) (hxs : xs ≠ []) :
    (calculate_statistics xs).mean = xs.sum / (xs.length : ℚ) ∧
    (calculate_statistics xs).median
      = (if xs.length % 2 = 1 then (pySorted xs).getD (xs.length / 2) 0
         else ((pySorted xs).getD (xs.length / 2 - 1) 0
            + (pySorted xs).getD (xs.length / 2) 0) / 2) ∧
    (calculate_statistics xs).std_dev
      = Real.sqrt (((xs.map (fun x => (x - xs.sum / (xs.length : ℚ)) ^ 2)).sum
          / (xs.length : ℚ) : ℚ) : ℝ) := by
  unfold calculate_statistics
  rw [if_neg hxs]
  dsimp only
  exact ⟨rfl, rfl, rfl⟩

/-- C6: `calculate_statistics` returns the arithmetic mean, the median (middle
sorted element for odd length, average of the two middle sorted elements for
even length) and the population standard deviation (square root of the
population variance); the empty list gives all zeros; and on
`[10, 20, 30, 40, 50]` it gives mean 30, median 30 and standard deviation
`sqrt 200`, which lies strictly between 14.14 and 14.15. -/
theorem calculate_statistics_spec :
    (∀ xs : List ℚ, xs ≠ [] →
      (calculate_statistics xs).mean = xs.sum / (xs.length : ℚ) ∧
      (calculate_statistics xs).median
        = (if xs.length % 2 = 1 then (pySorted xs).getD (xs.length / 2) 0
           else ((pySorted xs).getD (xs.length / 2 - 1) 0
              + (pySorted xs).getD (xs.length / 2) 0) / 2) ∧
      (calculate_statistics xs).std_dev
        = Real.sqrt (((xs.map (fun x => (x - xs.sum / (xs.length : ℚ)) ^ 2)).sum
            / (xs.length : ℚ) : ℚ) : ℝ)) ∧
    ((calculate_statistics []).mean = 0 ∧ (calculate_statistics []).median = 0 ∧
      (calculate_statistics []).std_dev = 0) ∧
    ((calculate_statistics [10, 20, 30, 40, 50]).mean = 30 ∧
     (calculate_statistics [10, 20, 30, 40, 50]).median = 30 ∧
     (calculate_statistics [10, 20, 30, 40, 50]).std_dev = Real.sqrt 200 ∧
     (14.14 : ℝ) < (calculate_statistics [10, 20, 30, 40, 50]).std_dev ∧
     (calculate_statistics [10, 20, 30, 40, 50]).std_dev < 14.15) := by
  have hconc := calculate_statistics_nonempty [10, 20, 30, 40, 50] (by decide)
  obtain ⟨hm, hmed, hsd⟩ := hconc
  have hsort : pySorted [10, 20, 30, 40, 50] = [10, 20, 30, 40, 50] := by decide
  have hv : ((([10, 20, 30, 40, 50] : List ℚ).map
        (fun x => (x - ([10, 20, 30, 40, 50] : List ℚ).sum
          / (([10, 20, 30, 40, 50] : List ℚ).length : ℚ)) ^ 2)).sum
        / (([10, 20, 30, 40, 50] : List ℚ).length : ℚ)) = (200 : ℚ) := by
    norm_num
  have hcast : (((200 : ℚ)) : ℝ) = 200 := by norm_cast
  have hsd200 : (calculate_statistics [10, 20, 30, 40, 50]).std_dev
      = Real.sqrt 200 := by
    rw [hsd, hv, hcast]
  refine ⟨calculate_statistics_nonempty, ⟨rfl, rfl, rfl⟩, ?_, ?_, hsd200, ?_, ?_⟩
  · rw [hm]
    norm_num
  · rw [hmed, hsort]
    decide
  · rw [hsd200]
    exact (Real.lt_sqrt (by norm_num)).mpr (by norm_num)
  · rw [hsd200]
    exact (Real.sqrt_lt' (by norm_num)).mpr (by norm_num)

/-- Witness for C6: the general description applied at `[10, 20, 30, 40, 50]`. -/
theorem calculate_statistics_spec_witness :
    (calculate_statistics [10, 20, 30, 40, 50]).mean
      = ([10, 20, 30, 40, 50] : List ℚ).sum
        / (([10, 20, 30, 40, 50] : List ℚ).length : ℚ) :=
  (calculate_statistics_spec.1 [10, 20, 30, 40, 50] (by decide)).1
